import Mathlib

/-!
Verification development for `tap_fairing` (the `ResponsesStream` incremental
replication engine of `src/tap_fairing/streams.py`).

The embedding models Python records as insertion-ordered association lists of
JSON scalar values, timestamps as microseconds since the Unix epoch (the
resolution of `datetime`/`timedelta`), and the HTTP layer as a probe oracle
`fetch : Int → List Row` giving the page the upstream serves for an `until`
timestamp.  The wall clock is an oracle `clock : Nat → Int`, read once per
binary-search step as `datetime.now(timezone.utc)` is in the source.
-/

/-- JSON scalar values as they appear in a decoded API record.  Python `None`,
`bool`, `int`, `float` and `str` are modelled; a float is modelled as the
exact decimal `num / 10 ^ exp`, which is faithful for the decimal conversions
the claims concern (no float rounding is ever exercised). -/
inductive Value where
  | null : Value
  | bool (b : Bool) : Value
  | int (n : Int) : Value
  | float (num : Int) (exp : Nat) : Value
  | str (s : String) : Value
deriving DecidableEq

/-- A Python dict row: insertion-ordered association list, as produced by
decoding a JSON object. -/
abbrev Row := List (String × Value)

/-- Python exceptions that the embedded code can raise. `outOfFuel` is not a
Python exception: it marks exhaustion of the explicit depth bound that the
embedding adds to the source's unbounded recursion. -/
inductive PyErr where
  | runtimeError : PyErr
  | indexError : PyErr
  | keyError : PyErr
  | valueError : PyErr
  | outOfFuel : PyErr
deriving DecidableEq

/-- Dict read `row[k]`/`k in row`: the value at the first occurrence of key
`k`, if any. -/
def getVal (k : String) : Row → Option Value
  | [] => Option.none
  | (a, b) :: rest => if a = k then some b else getVal k rest

/-- Dict write `row[k] = v`: replaces the value at the first occurrence of `k`
keeping its position, appending a fresh entry when `k` is absent (Python dict
update semantics). -/
def setVal (k : String) (v : Value) : Row → Row
  | [] => [(k, v)]
  | (a, b) :: rest => if a = k then (a, v) :: rest else (a, b) :: setVal k v rest

/-- Python truthiness `bool(x)` on the modelled values. -/
def pyTruthy : Value → Bool
  | .null => false
  | .bool b => b
  | .int n => n != 0
  | .float num _ => num != 0
  | .str s => s != ""

/-- Value of a decimal digit string. -/
def digitsToNat (l : List Char) : Nat :=
  l.foldl (fun acc c => acc * 10 + (c.toNat - 48)) 0

/-- Strip leading and trailing whitespace (Python `str.strip`, which `float`
applies to its string argument). -/
def trimChars (l : List Char) : List Char :=
  ((l.dropWhile Char.isWhitespace).reverse.dropWhile Char.isWhitespace).reverse

/-- Models the Python builtin `float` applied to a string, restricted to plain
signed decimal literals (Python `float` also accepts exponents, `inf`, `nan`
and underscores, none of which arise in the claims).  The result is the exact
scaled decimal `(num, exp)` denoting `num / 10 ^ exp`; `none` models the
`ValueError` Python raises on unconvertible text. -/
def parseDecimal (s : String) : Option (Int × Nat) :=
  let l := trimChars s.toList
  let p := match l with
    | '-' :: rest => ((-1 : Int), rest)
    | '+' :: rest => ((1 : Int), rest)
    | _ => ((1 : Int), l)
  let ip := p.2.takeWhile Char.isDigit
  let rest := p.2.drop ip.length
  match rest with
  | [] => if ip.isEmpty then Option.none else some (p.1 * digitsToNat ip, 0)
  | '.' :: fp =>
    if fp.all Char.isDigit && !(ip.isEmpty && fp.isEmpty) then
      some (p.1 * (digitsToNat ip * 10 ^ fp.length + digitsToNat fp), fp.length)
    else Option.none
  | _ => Option.none

/-- The Python builtin `float` on the modelled values; `none` models the
`TypeError`/`ValueError` raised on unconvertible input. -/
def pyFloat : Value → Option Value
  | .bool b => some (.float (if b then 1 else 0) 0)
  | .int n => some (.float n 0)
  | .float num exp => some (.float num exp)
  | .str s => (parseDecimal s).map (fun p => Value.float p.1 p.2)
  | .null => Option.none

/-- Decimal rendering of a modelled float; an approximation of CPython float
`repr` sufficient here because no claim evaluates `str` on a float. -/
def floatRepr (num : Int) (exp : Nat) : String :=
  if exp = 0 then toString num ++ ".0"
  else toString num ++ "e-" ++ toString exp

/-- The Python builtin `str` on the modelled values. -/
def pyStr : Value → String
  | .null => "None"
  | .bool b => if b then "True" else "False"
  | .int n => toString n
  | .float num exp => floatRepr num exp
  | .str s => s

/-- `ResponsesStream.post_process`, one falsy-guarded float coercion
(`if k in row and row[k]: row[k] = float(row[k])`). -/
def coerceFloatField (row : Row) (k : String) : Except PyErr Row :=
  match getVal k row with
  | Option.none => .ok row
  | some v =>
    if pyTruthy v then
      match pyFloat v with
      | some v' => .ok (setVal k v' row)
      | Option.none => .error .valueError
    else .ok row

/-- `ResponsesStream.post_process`, one falsy-guarded string coercion
(`if k in row and row[k]: row[k] = str(row[k])`); `str` never raises. -/
def coerceStrField (row : Row) (k : String) : Row :=
  match getVal k row with
  | Option.none => row
  | some v => if pyTruthy v then setVal k (.str (pyStr v)) row else row

/-- `ResponsesStream.post_process`: coerces `order_total` and
`order_total_usd` to float and the four foreign-key id fields to string, each
guarded by presence and truthiness, then returns the row (the source has no
`return None` path). -/
def post_process (row : Row) : Except PyErr Row :=
  match coerceFloatField row "order_total" with
  | .error e => .error e
  | .ok row1 =>
    match coerceFloatField row1 "order_total_usd" with
    | .error e => .error e
    | .ok row2 =>
      .ok (coerceStrField (coerceStrField (coerceStrField
        (coerceStrField row2 "question_id") "referring_question_id")
        "referring_question_response_id") "response_id")

/-- `ResponsesStream.parse_response`: the raw page arrives in descending time
order and is reversed before records are yielded. -/
def parse_response (data : List Row) : List Row := data.reverse

/-- Concatenation of a list of lists. -/
def joinAll : List (List α) → List α
  | [] => []
  | l :: ls => l ++ joinAll ls

/-- Effectful map over `Except`, modelling a Python loop that processes
records one by one and aborts the whole run on the first exception. -/
def mapExcept (f : α → Except PyErr β) : List α → Except PyErr (List β)
  | [] => .ok []
  | a :: l =>
    match f a with
    | .error e => .error e
    | .ok b =>
      match mapExcept f l with
      | .error e => .error e
      | .ok bs => .ok (b :: bs)

/-- The record sequence `request_records` hands to `get_records` over a run,
given the raw pages fetched in order: each page is passed through
`parse_response`. -/
def request_records (pages : List (List Row)) : List Row :=
  joinAll (pages.map parse_response)

/-- The emission loop of `ResponsesStream.get_records`: every record of every
(reversed) page is passed through `post_process` and yielded; `post_process`
has no `None` result, so no record is filtered. -/
def get_records (pages : List (List Row)) : Except PyErr (List Row) :=
  mapExcept post_process (request_records pages)

/-- The replication-key value of a record: its `"id"` field, read as the
string the API documents it to be (defaulting to `""` on malformed rows,
which the claims' hypotheses exclude). -/
def idStr (r : Row) : String :=
  match getVal "id" r with
  | some (.str s) => s
  | _ => ""

/-- Gregorian civil date from days since 1970-01-01 (the standard
`civil_from_days` algorithm); models the calendar arithmetic inside CPython
`datetime.strftime`. -/
def civilFromDays (z0 : Int) : Int × Nat × Nat :=
  let z := z0 + 719468
  let era := Int.fdiv z 146097
  let doe := (z - era * 146097).toNat
  let yoe := (doe - doe / 1460 + doe / 36524 - doe / 146096) / 365
  let doy := doe - (365 * yoe + yoe / 4 - yoe / 100)
  let mp := (5 * doy + 2) / 153
  let d := doy - (153 * mp + 2) / 5 + 1
  let m := if mp < 10 then mp + 3 else mp - 9
  ((yoe : Int) + era * 400 + (if m ≤ 2 then 1 else 0), m, d)

/-- Days since 1970-01-01 of a Gregorian civil date (the standard
`days_from_civil` algorithm); models the calendar arithmetic inside
`datetime`/`dateutil` parsing. -/
def daysFromCivil (y : Int) (m d : Nat) : Int :=
  let y' := y - (if m ≤ 2 then 1 else 0)
  let era := Int.fdiv y' 400
  let yoe := (y' - era * 400).toNat
  let mp := if 2 < m then m - 3 else m + 9
  let doy := (153 * mp + 2) / 5 + (d - 1)
  let doe := yoe * 365 + yoe / 4 - yoe / 100 + doy
  era * 146097 + (doe : Int) - 719468

/-- Zero-padded decimal rendering of a natural number. -/
def padNat (width n : Nat) : String :=
  let s := toString n
  String.mk (List.replicate (width - s.length) '0') ++ s

/-- `datetime.strftime("%Y-%m-%dT%H:%M:%S.%fZ")` on a UTC timestamp counted
in microseconds since the Unix epoch. -/
def fmtTimestamp (t : Int) : String :=
  let day := Int.fdiv t 86400000000
  let us := (t - day * 86400000000).toNat
  let c := civilFromDays day
  padNat 4 c.1.toNat ++ "-" ++ padNat 2 c.2.1 ++ "-" ++ padNat 2 c.2.2 ++ "T" ++
    padNat 2 (us / 3600000000) ++ ":" ++ padNat 2 (us / 60000000 % 60) ++ ":" ++
    padNat 2 (us / 1000000 % 60) ++ "." ++ padNat 6 (us % 1000000) ++ "Z"

/-- Numeric value of a two-digit field. -/
def twoDigits (a b : Char) : Option Nat :=
  if a.isDigit && b.isDigit then some ((a.toNat - 48) * 10 + (b.toNat - 48)) else Option.none

/-- Fractional-seconds-plus-timezone tail of an ISO-8601 timestamp, in
microseconds. -/
def parseFracTz : List Char → Option Nat
  | [] => some 0
  | ['Z'] => some 0
  | ['+', '0', '0', ':', '0', '0'] => some 0
  | '.' :: rest =>
    let digs := rest.takeWhile Char.isDigit
    let rest' := rest.drop digs.length
    if 1 ≤ digs.length && digs.length ≤ 6 &&
        (rest' = [] || rest' = ['Z'] || rest' = ['+', '0', '0', ':', '0', '0']) then
      some (digitsToNat digs * 10 ^ (6 - digs.length))
    else Option.none
  | _ => Option.none

/-- Time-of-day part of an ISO-8601 timestamp, in microseconds within the
day. -/
def parseTimePart : List Char → Option Nat
  | [] => some 0
  | 'T' :: h1 :: h2 :: ':' :: mi1 :: mi2 :: ':' :: s1 :: s2 :: rest => do
    let hh ← twoDigits h1 h2
    let mi ← twoDigits mi1 mi2
    let ss ← twoDigits s1 s2
    if hh < 24 && mi < 60 && ss < 60 then
      let us ← parseFracTz rest
      some ((hh * 3600 + mi * 60 + ss) * 1000000 + us)
    else Option.none
  | _ => Option.none

/-- `dateutil.parser.isoparse` restricted to the canonical forms the upstream
emits (`YYYY-MM-DD[THH:MM:SS[.ffffff]][Z|+00:00]`), returning UTC
microseconds since the Unix epoch; `none` models a parse error
(dateutil accepts further ISO-8601 shapes that never arise here). -/
def parseIso (s : String) : Option Int :=
  match s.toList with
  | y1 :: y2 :: y3 :: y4 :: '-' :: mo1 :: mo2 :: '-' :: dd1 :: dd2 :: rest =>
    if y1.isDigit && y2.isDigit && y3.isDigit && y4.isDigit then do
      let mm ← twoDigits mo1 mo2
      let dd ← twoDigits dd1 dd2
      if 1 ≤ mm && mm ≤ 12 && 1 ≤ dd && dd ≤ 31 then
        let us ← parseTimePart rest
        some (daysFromCivil (digitsToNat [y1, y2, y3, y4] : Int) mm dd * 86400000000 + (us : Int))
      else Option.none
    else Option.none
  | _ => Option.none

/-- `dateutil.parser.isoparse` applied to a record field value; non-string
input models the `TypeError` dateutil raises. -/
def isoparseV : Value → Option Int
  | .str s => parseIso s
  | _ => Option.none

/-- The `inserted_at` timestamp of a record, parsed: `isoparse(r["inserted_at"])`. -/
def insertedAt (r : Row) : Option Int :=
  match getVal "inserted_at" r with
  | some v => isoparseV v
  | Option.none => Option.none

/-- Models CPython `timedelta.__truediv__` by the integer 2 at microsecond
resolution (`_divide_and_round`): the quotient rounded to nearest, ties to
even.  Python floor division by the positive 2 coincides with Euclidean
division. -/
def halveDelta (d : Int) : Int :=
  if d % 2 = 0 then d / 2 else if (d / 2) % 2 = 0 then d / 2 else d / 2 + 1

/-- Python list indexing `l[i]`, including negative-index semantics; `none`
models `IndexError`. -/
def pyIndex (l : List α) (i : Int) : Option α :=
  if 0 ≤ i then
    if h : i.toNat < l.length then some (l.get ⟨i.toNat, h⟩) else Option.none
  else
    let j := (l.length : Int) + i
    if 0 ≤ j then
      if h : j.toNat < l.length then some (l.get ⟨j.toNat, h⟩) else Option.none
    else Option.none

/-- The record at position `j` from the oldest end of a raw (descending)
page, 0-based: position 0 is the oldest record. -/
def fromOldestEnd (page : List Row) (j : Nat) : Option Row := page.reverse[j]?

/-- The `{"before": idv, "limit": pageSize}` request parameters. -/
def beforeParams (idv : Value) (pageSize : Int) : Row :=
  [("before", idv), ("limit", .int pageSize)]

/-- The `{"until": ts, "limit": pageSize}` request parameters. -/
def untilParams (ts : String) (pageSize : Int) : Row :=
  [("until", .str ts), ("limit", .int pageSize)]

/-- The `{"limit": pageSize}` request parameters (the defensive fallback of
`get_url_params`). -/
def limitParams (pageSize : Int) : Row :=
  [("limit", .int pageSize)]

/-- The `JSONPathPaginator` built by `ResponsesStream.get_new_paginator`,
reading `newest_id_jsonpath = "$.data[0].id"` off the raw (descending) page:
the next token is the id of the page's first record, `none` when the page is
empty or the first record has no id (pagination then stops). -/
def next_page_token (page : List Row) : Option Value :=
  match page with
  | [] => Option.none
  | r :: _ => getVal "id" r

/-- `ResponsesStream.get_url_params`: transient initial parameters win,
otherwise a truthy paginator token yields a before-cursor request, otherwise
only the limit is sent. -/
def get_url_params (initialUrlParams : Option Row) (nextPageToken : Option Value)
    (pageSize : Int) : Row :=
  match initialUrlParams with
  | some params => params
  | Option.none =>
    match nextPageToken with
    | some tok => if pyTruthy tok then beforeParams tok pageSize else limitParams pageSize
    | Option.none => limitParams pageSize

/-- `ResponsesStream._check_start_date`: probe at the start date (the probe
oracle `fetch` models `_make_search_request`, which always requests
`limit = 100`); a non-empty page short-circuits with a before-cursor request
seeded from the page's first record, `records[0]["id"]`.  `ok none` models
the Python `return False`. -/
def check_start_date (fetch : Int → List Row) (pageSize : Int) (startDate : Int) :
    Except PyErr (Option Row) :=
  match fetch startDate with
  | [] => .ok Option.none
  | r :: _ =>
    match getVal "id" r with
    | Option.none => .error .keyError
    | some idv => .ok (some (beforeParams idv pageSize))

/-- `ResponsesStream._binary_search_for_oldest`.  `fetch` is the probe oracle
(the page served for an `until` timestamp), `clock st` the wall-clock value
`datetime.now(timezone.utc)` reads at recursion depth `st`, and `fuel` a
depth bound that only the embedding adds: the source recursion is unbounded,
and `.error .outOfFuel` marks the runs on which it would recurse deeper than
`fuel`.  The windowEnd-beyond-now check precedes the probe, as in the
source. -/
def binary_search_for_oldest (fetch : Int → List Row) (clock : Nat → Int)
    (pageSize : Int) : Nat → Nat → Int → Int → Except PyErr Row
  | st, 0, intervalEnd, _ =>
    if clock st < intervalEnd then .error .runtimeError else .error .outOfFuel
  | st, fuel + 1, intervalEnd, intervalDelta =>
    if clock st < intervalEnd then .error .runtimeError
    else
      let records := fetch intervalEnd
      if records.length = 0 then
        binary_search_for_oldest fetch clock pageSize (st + 1) fuel
          (intervalEnd + halveDelta intervalDelta) (halveDelta intervalDelta)
      else if records.length = 100 then
        binary_search_for_oldest fetch clock pageSize (st + 1) fuel
          (intervalEnd - halveDelta intervalDelta) (halveDelta intervalDelta)
      else if (records.length : Int) < pageSize then
        .ok (untilParams (fmtTimestamp intervalEnd) pageSize)
      else
        match pyIndex records (-pageSize) with
        | Option.none => .error .indexError
        | some r =>
          match getVal "inserted_at" r with
          | Option.none => .error .keyError
          | some v =>
            match isoparseV v with
            | Option.none => .error .valueError
            | some t => .ok (untilParams (fmtTimestamp t) pageSize)

/-- `ResponsesStream._find_oldest_page`.  `startDate` is the parsed
`start_date` config value; `clock 0` models the single `now = datetime.now`
read that seeds the search window, after the start-date probe, and the
binary search then reads `clock 1, clock 2, …`. -/
def find_oldest_page (fetch : Int → List Row) (clock : Nat → Int) (pageSize : Int)
    (fuel : Nat) (startDate : Int) : Except PyErr Row :=
  match check_start_date fetch pageSize startDate with
  | .error e => .error e
  | .ok (some params) => .ok params
  | .ok Option.none =>
    binary_search_for_oldest fetch clock pageSize 1 fuel (clock 0) (clock 0 - startDate)

/-- `ResponsesStream.get_records` on the no-checkpoint path: the cold-start
locator runs before any record is requested or emitted, so a locator failure
aborts the run with nothing emitted (and hence no checkpoint advance); on
success the run emits the processed records of the pages subsequently
fetched. -/
def get_records_cold_start (fetch : Int → List Row) (clock : Nat → Int)
    (pageSize : Int) (fuel : Nat) (startDate : Int) (pages : List (List Row)) :
    Except PyErr (List Row) :=
  match find_oldest_page fetch clock pageSize fuel startDate with
  | .error e => .error e
  | .ok _ => get_records pages

/-- The cold-start window state `(windowEnd, halfWidth)` along the
always-full-page branch of the binary search: each step moves the window
earlier by half the remaining width. -/
def searchIter (e0 d0 : Int) : Nat → Int × Int
  | 0 => (e0, d0)
  | i + 1 =>
    let p := searchIter e0 d0 i
    (p.1 - halveDelta p.2, halveDelta p.2)

/-- The five-record descending probe page used in the C5 counterexample;
record timestamps are 5,4,3,2,1 microseconds after the epoch. -/
def pageCex5 : List Row :=
  [[("inserted_at", Value.str "1970-01-01T00:00:00.000005Z")],
   [("inserted_at", Value.str "1970-01-01T00:00:00.000004Z")],
   [("inserted_at", Value.str "1970-01-01T00:00:00.000003Z")],
   [("inserted_at", Value.str "1970-01-01T00:00:00.000002Z")],
   [("inserted_at", Value.str "1970-01-01T00:00:00.000001Z")]]

instance {ε α : Type} [DecidableEq ε] [DecidableEq α] : DecidableEq (Except ε α) := fun a b =>
  match a, b with
  | .ok x, .ok y =>
    if h : x = y then .isTrue (by rw [h]) else .isFalse (fun he => h (Except.ok.inj he))
  | .error e, .error f =>
    if h : e = f then .isTrue (by rw [h]) else .isFalse (fun he => h (Except.error.inj he))
  | .ok _, .error _ => .isFalse (fun he => Except.noConfusion he)
  | .error _, .ok _ => .isFalse (fun he => Except.noConfusion he)

theorem getVal_setVal_self (k : String) (v : Value) :
    ∀ row : Row, getVal k (setVal k v row) = some v
  | [] => by simp [setVal, getVal]
  | (a, b) :: rest => by
    by_cases hak : a = k
    · simp [setVal, hak, getVal]
    · simp [setVal, hak, getVal, getVal_setVal_self k v rest]

theorem getVal_setVal_ne (k k' : String) (v : Value) (h : k' ≠ k) :
    ∀ row : Row, getVal k' (setVal k v row) = getVal k' row
  | [] => by simp [setVal, getVal, Ne.symm h]
  | (a, b) :: rest => by
    by_cases hak : a = k
    · subst hak
      simp [setVal, getVal, Ne.symm h]
    · simp [setVal, hak, getVal, getVal_setVal_ne k k' v h rest]

theorem keys_setVal (k : String) (v w : Value) :
    ∀ row : Row, getVal k row = some w → (setVal k v row).map Prod.fst = row.map Prod.fst
  | [], hv => by simp [getVal] at hv
  | (a, b) :: rest, hv => by
    by_cases hak : a = k
    · simp [setVal, hak]
    · simp [getVal, hak] at hv
      simp [setVal, hak, keys_setVal k v w rest hv]

theorem coerceFloatField_ok_frame {row r : Row} {k : String}
    (h : coerceFloatField row k = .ok r) :
    (∀ k', k' ≠ k → getVal k' r = getVal k' row) ∧ r.map Prod.fst = row.map Prod.fst := by
  unfold coerceFloatField at h
  split at h
  · injection h with h
    subst h
    exact ⟨fun _ _ => rfl, rfl⟩
  · rename_i v hv
    split at h
    · split at h
      · rename_i v' hf
        injection h with h
        subst h
        exact ⟨fun k' hk' => getVal_setVal_ne k k' v' hk' row, keys_setVal k v' v row hv⟩
      · exact Except.noConfusion h
    · injection h with h
      subst h
      exact ⟨fun _ _ => rfl, rfl⟩

theorem coerceFloatField_ok_self {row r : Row} {k : String}
    (h : coerceFloatField row k = .ok r) :
    (∀ v, getVal k row = some v → pyTruthy v = true → getVal k r = pyFloat v) ∧
    (∀ v, getVal k row = some v → pyTruthy v = false → getVal k r = some v) ∧
    (getVal k row = Option.none → getVal k r = Option.none) := by
  unfold coerceFloatField at h
  split at h
  · rename_i hv
    injection h with h
    subst h
    exact ⟨fun v hv' => by rw [hv] at hv'; exact Option.noConfusion hv',
      fun v hv' => by rw [hv] at hv'; exact Option.noConfusion hv', fun _ => hv⟩
  · rename_i v hv
    split at h
    · rename_i ht
      split at h
      · rename_i v' hf
        injection h with h
        subst h
        refine ⟨fun w hw _ => ?_, fun w hw htw => ?_,
          fun hn => by rw [hv] at hn; exact Option.noConfusion hn⟩
        · rw [hv] at hw
          injection hw with hw
          subst hw
          rw [getVal_setVal_self, hf]
        · rw [hv] at hw
          injection hw with hw
          subst hw
          rw [htw] at ht
          exact Bool.noConfusion ht
      · exact Except.noConfusion h
    · rename_i ht
      injection h with h
      subst h
      refine ⟨fun w hw htw => ?_, fun w hw _ => ?_,
        fun hn => by rw [hv] at hn; exact Option.noConfusion hn⟩
      · rw [hv] at hw
        injection hw with hw
        subst hw
        exact absurd htw ht
      · rw [hv] at hw
        injection hw with hw
        subst hw
        exact hv

theorem coerceStrField_frame (row : Row) (k k' : String) (h : k' ≠ k) :
    getVal k' (coerceStrField row k) = getVal k' row := by
  unfold coerceStrField
  split
  · rfl
  · split
    · exact getVal_setVal_ne k k' _ h row
    · rfl

theorem coerceStrField_keys (row : Row) (k : String) :
    (coerceStrField row k).map Prod.fst = row.map Prod.fst := by
  unfold coerceStrField
  split
  · rfl
  · rename_i v hv
    split
    · exact keys_setVal k _ v row hv
    · rfl

theorem coerceStrField_self (row : Row) (k : String) :
    (∀ v, getVal k row = some v → pyTruthy v = true →
      getVal k (coerceStrField row k) = some (.str (pyStr v))) ∧
    (∀ v, getVal k row = some v → pyTruthy v = false →
      getVal k (coerceStrField row k) = some v) ∧
    (getVal k row = Option.none → getVal k (coerceStrField row k) = Option.none) := by
  unfold coerceStrField
  split
  · rename_i hv
    exact ⟨fun v hv' => by rw [hv] at hv'; exact Option.noConfusion hv',
      fun v hv' => by rw [hv] at hv'; exact Option.noConfusion hv', fun _ => hv⟩
  · rename_i v hv
    split
    · rename_i ht
      refine ⟨fun w hw _ => ?_, fun w hw htw => ?_,
        fun hn => by rw [hv] at hn; exact Option.noConfusion hn⟩
      · rw [hv] at hw
        injection hw with hw
        subst hw
        exact getVal_setVal_self k _ row
      · rw [hv] at hw
        injection hw with hw
        subst hw
        rw [htw] at ht
        exact Bool.noConfusion ht
    · rename_i ht
      refine ⟨fun w hw htw => ?_, fun w hw _ => ?_,
        fun hn => by rw [hv] at hn; exact Option.noConfusion hn⟩
      · rw [hv] at hw
        injection hw with hw
        subst hw
        exact absurd htw ht
      · exact hw

theorem post_process_ok_elim {row r : Row} (h : post_process row = .ok r) :
    ∃ row1 row2, coerceFloatField row "order_total" = .ok row1 ∧
      coerceFloatField row1 "order_total_usd" = .ok row2 ∧
      r = coerceStrField (coerceStrField (coerceStrField
        (coerceStrField row2 "question_id") "referring_question_id")
        "referring_question_response_id") "response_id" := by
  unfold post_process at h
  split at h
  · exact Except.noConfusion h
  · rename_i row1 h1
    split at h
    · exact Except.noConfusion h
    · rename_i row2 h2
      injection h with h
      exact ⟨row1, row2, h1, h2, h.symm⟩

theorem post_process_frame {row r : Row} (h : post_process row = .ok r) :
    r.map Prod.fst = row.map Prod.fst ∧
    ∀ k, k ≠ "order_total" → k ≠ "order_total_usd" → k ≠ "question_id" →
      k ≠ "referring_question_id" → k ≠ "referring_question_response_id" →
      k ≠ "response_id" → getVal k r = getVal k row := by
  obtain ⟨row1, row2, h1, h2, hr⟩ := post_process_ok_elim h
  subst hr
  constructor
  · rw [coerceStrField_keys, coerceStrField_keys, coerceStrField_keys, coerceStrField_keys,
      (coerceFloatField_ok_frame h2).2, (coerceFloatField_ok_frame h1).2]
  · intro k hk1 hk2 hk3 hk4 hk5 hk6
    rw [coerceStrField_frame _ _ _ hk6, coerceStrField_frame _ _ _ hk5,
      coerceStrField_frame _ _ _ hk4, coerceStrField_frame _ _ _ hk3,
      (coerceFloatField_ok_frame h2).1 k hk2, (coerceFloatField_ok_frame h1).1 k hk1]

theorem post_process_id_preserved {row r : Row} (h : post_process row = .ok r) :
    idStr r = idStr row := by
  unfold idStr
  rw [(post_process_frame h).2 "id" (by decide) (by decide) (by decide) (by decide)
    (by decide) (by decide)]

theorem mapExcept_ok_length {α β : Type} {f : α → Except PyErr β} :
    ∀ {l : List α} {out : List β}, mapExcept f l = .ok out → out.length = l.length
  | [], out, h => by
    unfold mapExcept at h
    injection h with h
    subst h
    rfl
  | a :: l, out, h => by
    unfold mapExcept at h
    split at h
    · exact Except.noConfusion h
    · split at h
      · exact Except.noConfusion h
      · rename_i bs hml
        injection h with h
        subst h
        simp [mapExcept_ok_length hml]

theorem mapExcept_ok_map {f : Row → Except PyErr Row} {g : Row → String}
    (hf : ∀ a b, f a = .ok b → g b = g a) :
    ∀ {l out : List Row}, mapExcept f l = .ok out → out.map g = l.map g
  | [], out, h => by
    unfold mapExcept at h
    injection h with h
    subst h
    rfl
  | a :: l, out, h => by
    unfold mapExcept at h
    split at h
    · exact Except.noConfusion h
    · rename_i b hfa
      split at h
      · exact Except.noConfusion h
      · rename_i bs hml
        injection h with h
        subst h
        simp [mapExcept_ok_map hf hml, hf a b hfa]

/-- C7: the Page Reconciler `parse_response` is a true reversal: applying it
twice is the identity, and a single application is exactly list reversal,
preserving length, membership and the multiset of records, only inverting
the sequence order. -/
theorem parse_response_involutive (p : List Row) :
    parse_response (parse_response p) = p ∧
    parse_response p = p.reverse ∧
    (parse_response p).length = p.length ∧
    (∀ r : Row, r ∈ parse_response p ↔ r ∈ p) ∧
    (Multiset.ofList (parse_response p) : Multiset Row) = Multiset.ofList p :=
  ⟨List.reverse_reverse p, rfl, List.length_reverse p,
    fun _ => List.mem_reverse, Quot.sound (List.reverse_perm p)⟩

/-- C8: `post_process` coerces `order_total` and `order_total_usd` to float
exactly when the field is present and truthy, coerces `question_id`,
`referring_question_id`, `referring_question_response_id` and `response_id`
to string exactly when the field is present and truthy, and passes falsy
values and absent fields through unchanged. -/
theorem post_process_field_coercions (row r : Row) (h : post_process row = .ok r) :
    (∀ k, (k = "order_total" ∨ k = "order_total_usd") →
      (∀ v, getVal k row = some v → pyTruthy v = true → getVal k r = pyFloat v) ∧
      (∀ v, getVal k row = some v → pyTruthy v = false → getVal k r = some v) ∧
      (getVal k row = Option.none → getVal k r = Option.none)) ∧
    (∀ k, (k = "question_id" ∨ k = "referring_question_id" ∨
        k = "referring_question_response_id" ∨ k = "response_id") →
      (∀ v, getVal k row = some v → pyTruthy v = true →
        getVal k r = some (.str (pyStr v))) ∧
      (∀ v, getVal k row = some v → pyTruthy v = false → getVal k r = some v) ∧
      (getVal k row = Option.none → getVal k r = Option.none)) := by
  obtain ⟨row1, row2, h1, h2, hr⟩ := post_process_ok_elim h
  subst hr
  constructor
  · rintro k (rfl | rfl)
    · have hchain : getVal "order_total" (coerceStrField (coerceStrField (coerceStrField
          (coerceStrField row2 "question_id") "referring_question_id")
          "referring_question_response_id") "response_id") = getVal "order_total" row2 := by
        rw [coerceStrField_frame _ _ _ (by decide), coerceStrField_frame _ _ _ (by decide),
          coerceStrField_frame _ _ _ (by decide), coerceStrField_frame _ _ _ (by decide)]
      have husd : getVal "order_total" row2 = getVal "order_total" row1 :=
        (coerceFloatField_ok_frame h2).1 _ (by decide)
      obtain ⟨hs1, hs2, hs3⟩ := coerceFloatField_ok_self h1
      exact ⟨fun v hv ht => by rw [hchain, husd, hs1 v hv ht],
        fun v hv ht => by rw [hchain, husd, hs2 v hv ht],
        fun hn => by rw [hchain, husd, hs3 hn]⟩
    · have hchain : getVal "order_total_usd" (coerceStrField (coerceStrField (coerceStrField
          (coerceStrField row2 "question_id") "referring_question_id")
          "referring_question_response_id") "response_id") = getVal "order_total_usd" row2 := by
        rw [coerceStrField_frame _ _ _ (by decide), coerceStrField_frame _ _ _ (by decide),
          coerceStrField_frame _ _ _ (by decide), coerceStrField_frame _ _ _ (by decide)]
      have hot : getVal "order_total_usd" row1 = getVal "order_total_usd" row :=
        (coerceFloatField_ok_frame h1).1 _ (by decide)
      obtain ⟨hs1, hs2, hs3⟩ := coerceFloatField_ok_self h2
      exact ⟨fun v hv ht => by rw [hchain, hs1 v (by rw [hot]; exact hv) ht],
        fun v hv ht => by rw [hchain, hs2 v (by rw [hot]; exact hv) ht],
        fun hn => by rw [hchain, hs3 (by rw [hot]; exact hn)]⟩
  · have hf2 : ∀ k, k ≠ "order_total_usd" → k ≠ "order_total" →
        getVal k row2 = getVal k row := fun k hk1 hk2 => by
      rw [(coerceFloatField_ok_frame h2).1 k hk1, (coerceFloatField_ok_frame h1).1 k hk2]
    rintro k (rfl | rfl | rfl | rfl)
    · have hchain : getVal "question_id" (coerceStrField (coerceStrField (coerceStrField
          (coerceStrField row2 "question_id") "referring_question_id")
          "referring_question_response_id") "response_id") =
          getVal "question_id" (coerceStrField row2 "question_id") := by
        rw [coerceStrField_frame _ _ _ (by decide), coerceStrField_frame _ _ _ (by decide),
          coerceStrField_frame _ _ _ (by decide)]
      obtain ⟨hs1, hs2, hs3⟩ := coerceStrField_self row2 "question_id"
      exact ⟨fun v hv ht => by
          rw [hchain, hs1 v (by rw [hf2 _ (by decide) (by decide)]; exact hv) ht],
        fun v hv ht => by
          rw [hchain, hs2 v (by rw [hf2 _ (by decide) (by decide)]; exact hv) ht],
        fun hn => by
          rw [hchain, hs3 (by rw [hf2 _ (by decide) (by decide)]; exact hn)]⟩
    · have hchain : getVal "referring_question_id" (coerceStrField (coerceStrField (coerceStrField
          (coerceStrField row2 "question_id") "referring_question_id")
          "referring_question_response_id") "response_id") =
          getVal "referring_question_id"
            (coerceStrField (coerceStrField row2 "question_id") "referring_question_id") := by
        rw [coerceStrField_frame _ _ _ (by decide), coerceStrField_frame _ _ _ (by decide)]
      have hq : getVal "referring_question_id" (coerceStrField row2 "question_id") =
          getVal "referring_question_id" row :=  by
        rw [coerceStrField_frame _ _ _ (by decide), hf2 _ (by decide) (by decide)]
      obtain ⟨hs1, hs2, hs3⟩ :=
        coerceStrField_self (coerceStrField row2 "question_id") "referring_question_id"
      exact ⟨fun v hv ht => by rw [hchain, hs1 v (by rw [hq]; exact hv) ht],
        fun v hv ht => by rw [hchain, hs2 v (by rw [hq]; exact hv) ht],
        fun hn => by rw [hchain, hs3 (by rw [hq]; exact hn)]⟩
    · have hchain : getVal "referring_question_response_id"
          (coerceStrField (coerceStrField (coerceStrField
          (coerceStrField row2 "question_id") "referring_question_id")
          "referring_question_response_id") "response_id") =
          getVal "referring_question_response_id"
            (coerceStrField (coerceStrField (coerceStrField row2 "question_id")
              "referring_question_id") "referring_question_response_id") := by
        rw [coerceStrField_frame _ _ _ (by decide)]
      have hq : getVal "referring_question_response_id"
          (coerceStrField (coerceStrField row2 "question_id") "referring_question_id") =
          getVal "referring_question_response_id" row := by
        rw [coerceStrField_frame _ _ _ (by decide), coerceStrField_frame _ _ _ (by decide),
          hf2 _ (by decide) (by decide)]
      obtain ⟨hs1, hs2, hs3⟩ := coerceStrField_self
        (coerceStrField (coerceStrField row2 "question_id") "referring_question_id")
        "referring_question_response_id"
      exact ⟨fun v hv ht => by rw [hchain, hs1 v (by rw [hq]; exact hv) ht],
        fun v hv ht => by rw [hchain, hs2 v (by rw [hq]; exact hv) ht],
        fun hn => by rw [hchain, hs3 (by rw [hq]; exact hn)]⟩
    · have hq : getVal "response_id" (coerceStrField (coerceStrField
          (coerceStrField row2 "question_id") "referring_question_id")
          "referring_question_response_id") = getVal "response_id" row := by
        rw [coerceStrField_frame _ _ _ (by decide), coerceStrField_frame _ _ _ (by decide),
          coerceStrField_frame _ _ _ (by decide), hf2 _ (by decide) (by decide)]
      obtain ⟨hs1, hs2, hs3⟩ := coerceStrField_self (coerceStrField (coerceStrField
        (coerceStrField row2 "question_id") "referring_question_id")
        "referring_question_response_id") "response_id"
      exact ⟨fun v hv ht => by rw [hs1 v (by rw [hq]; exact hv) ht],
        fun v hv ht => by rw [hs2 v (by rw [hq]; exact hv) ht],
        fun hn => by rw [hs3 (by rw [hq]; exact hn)]⟩

/-- Witness for C8 at the spec's concrete normalization scenario: a record
with string `order_total = "19.99"` and integer `question_id = 42`
normalizes to the float `19.99` and the string `"42"`, and a record with
null `order_total` keeps it null. -/
theorem post_process_field_coercions_witness :
    getVal "order_total" [("order_total", Value.float 1999 2), ("question_id", Value.str "42")] =
      pyFloat (.str "19.99") ∧
    getVal "question_id" [("order_total", Value.float 1999 2), ("question_id", Value.str "42")] =
      some (.str (pyStr (.int 42))) ∧
    getVal "order_total" [("order_total", Value.null)] = some Value.null := by
  have h1 := post_process_field_coercions
    [("order_total", .str "19.99"), ("question_id", .int 42)]
    [("order_total", .float 1999 2), ("question_id", .str "42")] (by decide)
  have h2 := post_process_field_coercions [("order_total", Value.null)]
    [("order_total", Value.null)] (by decide)
  refine ⟨?_, ?_, ?_⟩
  · exact (h1.1 "order_total" (Or.inl rfl)).1 (.str "19.99") (by decide) (by decide)
  · exact (h1.2 "question_id" (Or.inl rfl)).1 (.int 42) (by decide) (by decide)
  · exact (h2.1 "order_total" (Or.inl rfl)).2.1 Value.null (by decide) (by decide)

/-- C10: `post_process` never filters a record out of the stream (every
successfully processed record is returned and emitted), and the returned
record differs from the input in at most the six coerced fields: the key
sequence is unchanged and every other field's value is unchanged. -/
theorem post_process_no_filter_frame (row r : Row) (h : post_process row = .ok r) :
    r.map Prod.fst = row.map Prod.fst ∧
    (∀ k, ¬ (k = "order_total" ∨ k = "order_total_usd" ∨ k = "question_id" ∨
        k = "referring_question_id" ∨ k = "referring_question_response_id" ∨
        k = "response_id") → getVal k r = getVal k row) ∧
    (∀ pages out, get_records pages = .ok out →
      out.length = (request_records pages).length) :=
  ⟨(post_process_frame h).1,
    fun k hk => (post_process_frame h).2 k (fun he => hk (Or.inl he))
      (fun he => hk (Or.inr (Or.inl he))) (fun he => hk (Or.inr (Or.inr (Or.inl he))))
      (fun he => hk (Or.inr (Or.inr (Or.inr (Or.inl he)))))
      (fun he => hk (Or.inr (Or.inr (Or.inr (Or.inr (Or.inl he))))))
      (fun he => hk (Or.inr (Or.inr (Or.inr (Or.inr (Or.inr he)))))),
    fun _ _ hout => mapExcept_ok_length hout⟩

/-- Witness for C10: a record with an unrelated field keeps it unchanged,
keys and order included, and the emission of a concrete run keeps every
record. -/
theorem post_process_no_filter_frame_witness :
    ([("email", Value.str "x@y.z"), ("order_total", Value.str "5"),
        ("id", Value.str "a")] : Row).map Prod.fst =
      ([("email", Value.str "x@y.z"), ("order_total", Value.str "5"),
        ("id", Value.str "a")] : Row).map Prod.fst ∧
    getVal "email" [("email", Value.str "x@y.z"), ("order_total", Value.float 5 0),
        ("id", Value.str "a")] =
      getVal "email" [("email", Value.str "x@y.z"), ("order_total", Value.str "5"),
        ("id", Value.str "a")] ∧
    ∀ out, get_records [[[("id", Value.str "a")]]] = .ok out → out.length = 1 := by
  have h := post_process_no_filter_frame
    [("email", Value.str "x@y.z"), ("order_total", Value.str "5"), ("id", Value.str "a")]
    [("email", Value.str "x@y.z"), ("order_total", Value.float 5 0), ("id", Value.str "a")]
    (by decide)
  exact ⟨rfl, h.2.1 "email" (by decide), fun out hout => h.2.2 _ out hout⟩

theorem mem_joinAll {α : Type} {a : α} :
    ∀ {L : List (List α)}, a ∈ joinAll L ↔ ∃ l, l ∈ L ∧ a ∈ l
  | [] => by simp [joinAll]
  | l :: ls => by
    simp only [joinAll, List.mem_append, List.mem_cons, mem_joinAll (L := ls)]
    constructor
    · rintro (h | ⟨q, hq, ha⟩)
      · exact ⟨l, Or.inl rfl, h⟩
      · exact ⟨q, Or.inr hq, ha⟩
    · rintro ⟨q, (rfl | hq), ha⟩
      · exact Or.inl ha
      · exact Or.inr ⟨q, hq, ha⟩

theorem mem_of_headQ {α : Type} {l : List α} {x : α} (h : l.head? = some x) : x ∈ l := by
  cases l with
  | nil => exact Option.noConfusion h
  | cons a l =>
    injection h with h
    subst h
    exact List.mem_cons_self a l

theorem mem_of_getLastQ {α : Type} {l : List α} {x : α} (h : l.getLast? = some x) : x ∈ l := by
  rw [← List.head?_reverse] at h
  exact List.mem_reverse.1 (mem_of_headQ h)

theorem chain_lt_request_records :
    ∀ pages : List (List Row),
      (∀ p ∈ pages, List.Chain' (fun a b => idStr b < idStr a) p) →
      List.Pairwise (fun p q => ∀ a ∈ p, ∀ b ∈ q, idStr a < idStr b) pages →
      List.Chain' (· < ·) ((request_records pages).map idStr)
  | [], _, _ => List.chain'_nil
  | p :: pages, hdesc, hacross => by
    have hrr : request_records (p :: pages) = p.reverse ++ request_records pages := rfl
    rw [hrr, List.map_append]
    have hhead : List.Chain' (· < ·) (p.reverse.map idStr) := by
      rw [List.chain'_map, List.chain'_reverse]
      exact hdesc p (List.mem_cons_self p pages)
    have htail : List.Chain' (· < ·) ((request_records pages).map idStr) :=
      chain_lt_request_records pages (fun q hq => hdesc q (List.mem_cons_of_mem p hq))
        (List.Pairwise.sublist (List.sublist_cons_self p pages) hacross)
    refine List.Chain'.append hhead htail ?_
    intro x hx y hy
    obtain ⟨a, ha, hax⟩ := List.mem_map.1 (mem_of_getLastQ hx)
    obtain ⟨b, hb, hby⟩ := List.mem_map.1 (mem_of_headQ hy)
    obtain ⟨q, hq, hbq⟩ := mem_joinAll.1 hb
    obtain ⟨q0, hq0, hqr⟩ := List.mem_map.1 hq
    have hcross := (List.pairwise_cons.1 hacross).1 q0 hq0
    subst hax hby
    subst hqr
    exact hcross a (List.mem_reverse.1 ha) b (List.mem_reverse.1 hbq)

/-- C1: over a run whose fetched pages are each in strictly descending id
order, every record of each later page having an id strictly greater than
every id of earlier pages, the records emitted by `get_records` appear in
strictly increasing id order, and so the checkpoint, advanced to each emitted
record's id in turn, never decreases over the run. -/
theorem get_records_ascending (pages : List (List Row)) (out : List Row)
    (hdesc : ∀ p ∈ pages, List.Chain' (fun a b => idStr b < idStr a) p)
    (hacross : List.Pairwise (fun p q => ∀ a ∈ p, ∀ b ∈ q, idStr a < idStr b) pages)
    (hok : get_records pages = .ok out) :
    List.Chain' (· < ·) (out.map idStr) ∧ List.Chain' (· ≤ ·) (out.map idStr) := by
  have hmap : out.map idStr = (request_records pages).map idStr :=
    mapExcept_ok_map (fun a b hab => post_process_id_preserved hab) hok
  rw [hmap]
  have hlt := chain_lt_request_records pages hdesc hacross
  exact ⟨hlt, hlt.imp (fun _ _ hab => le_of_lt hab)⟩

/-- Witness for C1: a two-page run, each raw page descending, the second
page's ids above the first's, emits ids in strictly ascending order. -/
theorem get_records_ascending_witness :
    List.Chain' (· < ·)
      (([[("id", Value.str "a")], [("id", Value.str "b")],
         [("id", Value.str "c")], [("id", Value.str "d")]] : List Row).map idStr) := by
  have hab : idStr [("id", Value.str "a")] < idStr [("id", Value.str "b")] := by
    rw [String.lt_iff_toList_lt]; decide
  have hbc : idStr [("id", Value.str "b")] < idStr [("id", Value.str "c")] := by
    rw [String.lt_iff_toList_lt]; decide
  have hbd : idStr [("id", Value.str "b")] < idStr [("id", Value.str "d")] := by
    rw [String.lt_iff_toList_lt]; decide
  have hcd : idStr [("id", Value.str "c")] < idStr [("id", Value.str "d")] := by
    rw [String.lt_iff_toList_lt]; decide
  have hac : idStr [("id", Value.str "a")] < idStr [("id", Value.str "c")] := by
    rw [String.lt_iff_toList_lt]; decide
  have had : idStr [("id", Value.str "a")] < idStr [("id", Value.str "d")] := by
    rw [String.lt_iff_toList_lt]; decide
  have h := get_records_ascending
    [[[("id", Value.str "b")], [("id", Value.str "a")]],
     [[("id", Value.str "d")], [("id", Value.str "c")]]]
    [[("id", Value.str "a")], [("id", Value.str "b")],
     [("id", Value.str "c")], [("id", Value.str "d")]]
    (by
      intro p hp
      rcases List.mem_cons.1 hp with rfl | hp
      · exact List.chain'_cons.2 ⟨hab, List.chain'_singleton _⟩
      rcases List.mem_cons.1 hp with rfl | hp
      · exact List.chain'_cons.2 ⟨hcd, List.chain'_singleton _⟩
      exact absurd hp (List.not_mem_nil p))
    (by
      refine List.pairwise_cons.2 ⟨?_, List.pairwise_singleton _ _⟩
      intro q hq a ha b hb
      rcases List.mem_cons.1 hq with rfl | hq
      · rcases List.mem_cons.1 ha with rfl | ha
        · rcases List.mem_cons.1 hb with rfl | hb
          · exact hbd
          rcases List.mem_cons.1 hb with rfl | hb
          · exact hbc
          exact absurd hb (List.not_mem_nil b)
        rcases List.mem_cons.1 ha with rfl | ha
        · rcases List.mem_cons.1 hb with rfl | hb
          · exact had
          rcases List.mem_cons.1 hb with rfl | hb
          · exact hac
          exact absurd hb (List.not_mem_nil b)
        exact absurd ha (List.not_mem_nil a)
      exact absurd hq (List.not_mem_nil q))
    rfl
  exact h.1

theorem chain_desc_le_head : ∀ (p : List Row) (r0 : Row),
    List.Chain' (fun a b => idStr b < idStr a) (r0 :: p) →
    ∀ r ∈ r0 :: p, idStr r ≤ idStr r0
  | [], r0, _, r, hr => by
    rcases List.mem_cons.1 hr with rfl | hr
    · exact le_refl _
    · exact absurd hr (List.not_mem_nil r)
  | r1 :: p, r0, h, r, hr => by
    have h01 : idStr r1 < idStr r0 := (List.chain'_cons.1 h).1
    have htail := (List.chain'_cons.1 h).2
    rcases List.mem_cons.1 hr with rfl | hr
    · exact le_refl _
    · exact le_trans (chain_desc_le_head p r1 htail r hr) (le_of_lt h01)

/-- C2 (amended): after the first request of a run, the request parameters
are a before-id cursor whose value is the id of the FIRST record of the most
recently fetched raw page — the newest record there, since raw pages arrive
in strictly descending id order — together with limit equal to the
configured page size. -/
theorem get_url_params_next_is_newest (page : List Row) (ps : Int) (r0 : Row)
    (rest : List Row) (s0 : String)
    (hp : page = r0 :: rest)
    (hid : getVal "id" r0 = some (.str s0))
    (hs : s0 ≠ "")
    (hdesc : List.Chain' (fun a b => idStr b < idStr a) page) :
    get_url_params Option.none (next_page_token page) ps = beforeParams (.str s0) ps ∧
    ∀ r ∈ page, idStr r ≤ idStr r0 := by
  subst hp
  refine ⟨?_, chain_desc_le_head rest r0 hdesc⟩
  have htok : next_page_token (r0 :: rest) = some (.str s0) := by
    simp [next_page_token, hid]
  have htruthy : pyTruthy (.str s0) = true := by
    simp [pyTruthy, hs]
  simp [get_url_params, htok, htruthy]

/-- C2 counterexample: with the most recently fetched page
`[{id: "b"}, {id: "a"}]` (descending, oldest id `"a"`), the next request's
cursor value is `"b"`, not the oldest id `"a"` the claim names. -/
theorem get_url_params_next_oldest_cex :
    get_url_params Option.none
        (next_page_token [[("id", Value.str "b")], [("id", Value.str "a")]]) 100 =
      beforeParams (.str "b") 100 ∧
    idStr [("id", Value.str "a")] < idStr [("id", Value.str "b")] ∧
    get_url_params Option.none
        (next_page_token [[("id", Value.str "b")], [("id", Value.str "a")]]) 100 ≠
      beforeParams (.str "a") 100 := by
  refine ⟨by decide, ?_, by decide⟩
  rw [show idStr [("id", Value.str "a")] = "a" from rfl,
    show idStr [("id", Value.str "b")] = "b" from rfl, String.lt_iff_toList_lt]
  decide

/-- Witness for C2 at a concrete descending page with a truthy string id. -/
theorem get_url_params_next_is_newest_witness :
    get_url_params Option.none
        (next_page_token [[("id", Value.str "b")], [("id", Value.str "a")]]) 7 =
      beforeParams (.str "b") 7 ∧
    ∀ r ∈ ([[("id", Value.str "b")], [("id", Value.str "a")]] : List Row),
      idStr r ≤ idStr [("id", Value.str "b")] := by
  have hd : List.Chain' (fun a b => idStr b < idStr a)
      [[("id", Value.str "b")], [("id", Value.str "a")]] := by
    refine List.chain'_cons.2 ⟨?_, List.chain'_singleton _⟩
    rw [show idStr [("id", Value.str "a")] = "a" from rfl,
      show idStr [("id", Value.str "b")] = "b" from rfl, String.lt_iff_toList_lt]
    decide
  exact get_url_params_next_is_newest _ 7 _ _ "b" rfl rfl (by decide) hd

/-- C4 (amended): when no checkpoint exists and the Step-0 probe at startDate
returns a non-empty page, the locator bypasses the binary search (it returns
identically for every clock and every recursion budget, the zero budget
included) and yields a before-cursor request whose cursor value is the id of
the FIRST record of that page — the newest id found there, as the page is
descending — with limit equal to the configured page size. -/
theorem find_oldest_page_start_hit (fetch : Int → List Row) (clock : Nat → Int)
    (ps : Int) (fuel : Nat) (sd : Int) (r0 : Row) (rest : List Row) (idv : Value)
    (hfetch : fetch sd = r0 :: rest)
    (hid : getVal "id" r0 = some idv) :
    find_oldest_page fetch clock ps fuel sd = .ok (beforeParams idv ps) ∧
    (List.Chain' (fun a b => idStr b < idStr a) (r0 :: rest) →
      ∀ r ∈ r0 :: rest, idStr r ≤ idStr r0) := by
  refine ⟨?_, fun hd => chain_desc_le_head rest r0 hd⟩
  simp [find_oldest_page, check_start_date, hfetch, hid]

/-- C4 counterexample: a Step-0 probe page `[{id: "b"}, {id: "a"}]` in
descending order has oldest id `"a"`, but the locator seeds the
before-cursor with `"b"`. -/
theorem find_oldest_page_start_hit_cex :
    find_oldest_page (fun _ => [[("id", Value.str "b")], [("id", Value.str "a")]])
        (fun _ => 0) 100 0 0 = .ok (beforeParams (.str "b") 100) ∧
    idStr [("id", Value.str "a")] < idStr [("id", Value.str "b")] ∧
    find_oldest_page (fun _ => [[("id", Value.str "b")], [("id", Value.str "a")]])
        (fun _ => 0) 100 0 0 ≠ .ok (beforeParams (.str "a") 100) := by
  refine ⟨by decide, ?_, by decide⟩
  rw [show idStr [("id", Value.str "a")] = "a" from rfl,
    show idStr [("id", Value.str "b")] = "b" from rfl, String.lt_iff_toList_lt]
  decide

/-- Witness for C4 at a concrete non-empty Step-0 page, with zero recursion
budget, showing the search is bypassed. -/
theorem find_oldest_page_start_hit_witness :
    find_oldest_page (fun _ => [[("id", Value.str "b")], [("id", Value.str "a")]])
        (fun _ => 0) 25 0 0 = .ok (beforeParams (.str "b") 25) := by
  exact (find_oldest_page_start_hit (fun _ => [[("id", Value.str "b")], [("id", Value.str "a")]])
    (fun _ => 0) 25 0 0 _ _ (.str "b") rfl rfl).1

/-- C3: with an empty Step-0 probe at startDate the cold-start search state
`(windowEnd, halfWidth)` is initialized to `(now, now − startDate)`, and a
probe step at a windowEnd not beyond the clock rewrites the state to
`(windowEnd + halfWidth/2, halfWidth/2)` on a page of 0 records and to
`(windowEnd − halfWidth/2, halfWidth/2)` on a page of exactly 100 records,
`/2` being Python timedelta halving. -/
theorem binary_search_window_updates (fetch : Int → List Row) (clock : Nat → Int)
    (ps : Int) (fuel : Nat) (sd e d : Int) (st : Nat) :
    (fetch sd = [] →
      find_oldest_page fetch clock ps fuel sd =
        binary_search_for_oldest fetch clock ps 1 fuel (clock 0) (clock 0 - sd)) ∧
    (e ≤ clock st → (fetch e).length = 0 →
      binary_search_for_oldest fetch clock ps st (fuel + 1) e d =
        binary_search_for_oldest fetch clock ps (st + 1) fuel
          (e + halveDelta d) (halveDelta d)) ∧
    (e ≤ clock st → (fetch e).length = 100 →
      binary_search_for_oldest fetch clock ps st (fuel + 1) e d =
        binary_search_for_oldest fetch clock ps (st + 1) fuel
          (e - halveDelta d) (halveDelta d)) := by
  refine ⟨fun hsd => ?_, fun hclk hlen => ?_, fun hclk hlen => ?_⟩
  · simp [find_oldest_page, check_start_date, hsd]
  · have hnotlt : ¬ clock st < e := not_lt.2 hclk
    simp [binary_search_for_oldest, hnotlt, hlen]
  · have hnotlt : ¬ clock st < e := not_lt.2 hclk
    simp [binary_search_for_oldest, hnotlt, hlen]

/-- Witness for C3: the initialization and both step equations at concrete
inputs (`halveDelta 4 = 2`). -/
theorem binary_search_window_updates_witness :
    find_oldest_page (fun _ => ([] : List Row)) (fun _ => 10) 2 0 0 =
      binary_search_for_oldest (fun _ => ([] : List Row)) (fun _ => 10) 2 1 0 10 10 ∧
    binary_search_for_oldest (fun _ => ([] : List Row)) (fun _ => 10) 2 0 1 5 4 =
      binary_search_for_oldest (fun _ => ([] : List Row)) (fun _ => 10) 2 1 0 7 2 ∧
    binary_search_for_oldest (fun _ => List.replicate 100 ([("id", Value.str "x")] : Row))
        (fun _ => 10) 2 0 1 5 4 =
      binary_search_for_oldest (fun _ => List.replicate 100 ([("id", Value.str "x")] : Row))
        (fun _ => 10) 2 1 0 3 2 := by
  refine ⟨?_, ?_, ?_⟩
  · exact (binary_search_window_updates (fun _ => []) (fun _ => 10) 2 0 0 5 4 0).1 rfl
  · exact (binary_search_window_updates (fun _ => []) (fun _ => 10) 2 0 0 5 4 0).2.1
      (by decide) rfl
  · exact (binary_search_window_updates
      (fun _ => List.replicate 100 ([("id", Value.str "x")] : Row))
      (fun _ => 10) 2 0 0 5 4 0).2.2 (by decide) (by simp)

/-- C6: a binary-search step entered with windowEnd later than the current
clock raises the fatal RuntimeError at once — for any recursion budget and
independently of the probe oracle, so no further request is issued and
nothing is retried — and a cold-start run whose locator raises aborts with
no record emitted, hence no checkpoint advance. -/
theorem binary_search_beyond_now_fatal (fetch fetch' : Int → List Row)
    (clock : Nat → Int) (ps : Int) (st fuel : Nat) (e d : Int)
    (h : clock st < e) :
    binary_search_for_oldest fetch clock ps st fuel e d = .error .runtimeError ∧
    binary_search_for_oldest fetch clock ps st fuel e d =
      binary_search_for_oldest fetch' clock ps st fuel e d ∧
    ∀ sd pages, find_oldest_page fetch clock ps fuel sd = .error .runtimeError →
      get_records_cold_start fetch clock ps fuel sd pages = .error .runtimeError := by
  have h1 : ∀ g : Int → List Row,
      binary_search_for_oldest g clock ps st fuel e d = .error .runtimeError := by
    intro g
    cases fuel with
    | zero => simp [binary_search_for_oldest, h]
    | succ n => simp [binary_search_for_oldest, h]
  refine ⟨h1 fetch, (h1 fetch).trans (h1 fetch').symm, fun sd pages hf => ?_⟩
  simp [get_records_cold_start, hf]

/-- Witness for C6: with the clock at 0 and windowEnd 1, the search fails
fatally, and a cold-start run with such a window emits nothing. -/
theorem binary_search_beyond_now_fatal_witness :
    binary_search_for_oldest (fun _ => ([] : List Row)) (fun _ => 10) 100 0 2 11 1 =
      .error .runtimeError ∧
    get_records_cold_start (fun _ => ([] : List Row)) (fun _ => 10) 100 2 (-10) [] =
      .error .runtimeError := by
  have h := binary_search_beyond_now_fatal (fun _ => ([] : List Row))
    (fun _ => ([] : List Row)) (fun _ => 10) 100 0 2 11 1 (by decide)
  exact ⟨h.1, h.2.2 (-10) [] (by decide)⟩

theorem halveDelta_nonneg {d : Int} (h : 0 ≤ d) : 0 ≤ halveDelta d := by
  unfold halveDelta
  split_ifs <;> omega

theorem halveDelta_lt {d : Int} (h : 2 ≤ d) : halveDelta d < d := by
  unfold halveDelta
  split_ifs <;> omega

theorem pyIndex_neg_mem (l : List Row) (ps : Int) (h1 : 0 < ps)
    (h2 : ps ≤ (l.length : Int)) :
    ∃ r, pyIndex l (-ps) = some r ∧ r ∈ l ∧ fromOldestEnd l (ps.toNat - 1) = some r := by
  have hneg : ¬ (0 : Int) ≤ -ps := by omega
  have hj0 : (0 : Int) ≤ (l.length : Int) + -ps := by omega
  have hjlt : ((l.length : Int) + -ps).toNat < l.length := by omega
  refine ⟨l.get ⟨((l.length : Int) + -ps).toNat, hjlt⟩, ?_, List.get_mem l _ hjlt, ?_⟩
  · unfold pyIndex
    rw [if_neg hneg, if_pos hj0, dif_pos hjlt]
  · unfold fromOldestEnd
    have hplt : ps.toNat - 1 < l.length := by omega
    rw [List.getElem?_reverse hplt]
    have hidx : l.length - 1 - (ps.toNat - 1) = ((l.length : Int) + -ps).toNat := by omega
    rw [hidx, List.getElem?_eq_getElem hjlt]
    rfl

theorem searchIter_succ_shift (e d : Int) :
    ∀ i, searchIter e d (i + 1) = searchIter (e - halveDelta d) (halveDelta d) i
  | 0 => rfl
  | i + 1 => by
    have ih := searchIter_succ_shift e d i
    show (let p := searchIter e d (i + 1); (p.1 - halveDelta p.2, halveDelta p.2)) =
      (let p := searchIter (e - halveDelta d) (halveDelta d) i;
        (p.1 - halveDelta p.2, halveDelta p.2))
    rw [ih]

theorem searchIter_zero_delta (e : Int) : ∀ i, searchIter e 0 i = (e, 0)
  | 0 => rfl
  | i + 1 => by
    show (let p := searchIter e 0 i; (p.1 - halveDelta p.2, halveDelta p.2)) = (e, 0)
    rw [searchIter_zero_delta e i]
    show (e - halveDelta 0, halveDelta 0) = (e, 0)
    rw [show halveDelta 0 = 0 from rfl]
    simp

theorem binary_search_partial_step (fetch : Int → List Row) (clock : Nat → Int)
    (ps : Int) (st fuel : Nat) (e d : Int)
    (hclk : e ≤ clock st)
    (hlen0 : (fetch e).length ≠ 0)
    (hlen100 : (fetch e).length ≠ 100) :
    (((fetch e).length : Int) < ps →
      binary_search_for_oldest fetch clock ps st (fuel + 1) e d =
        .ok (untilParams (fmtTimestamp e) ps)) ∧
    (∀ r t, ¬ ((fetch e).length : Int) < ps → 0 < ps →
      fromOldestEnd (fetch e) (ps.toNat - 1) = some r →
      insertedAt r = some t →
      binary_search_for_oldest fetch clock ps st (fuel + 1) e d =
        .ok (untilParams (fmtTimestamp t) ps)) := by
  have hnotlt : ¬ clock st < e := not_lt.2 hclk
  constructor
  · intro hlt
    simp [binary_search_for_oldest, hnotlt, hlen0, hlen100, hlt]
  · intro r t hge hps hfrom hins
    have hlen : ps ≤ ((fetch e).length : Int) := not_lt.1 hge
    obtain ⟨r', hpy, _, hfrom'⟩ := pyIndex_neg_mem (fetch e) ps hps hlen
    have hrr : r' = r := by
      rw [hfrom'] at hfrom
      exact Option.some.inj hfrom
    subst hrr
    obtain ⟨v, hgv, hiso⟩ : ∃ v, getVal "inserted_at" r' = some v ∧ isoparseV v = some t := by
      unfold insertedAt at hins
      split at hins
      · rename_i v hv
        exact ⟨v, hv, hins⟩
      · exact Option.noConfusion hins
    simp [binary_search_for_oldest, hnotlt, hlen0, hlen100, hge, hpy, hgv, hiso]

/-- C5 (amended): at a binary-search probe whose page is partial (count in
1..99): if count < pageSize the search returns an until-cursor request at
windowEnd with limit = pageSize; otherwise it returns an until-cursor
request whose timestamp is the reparsed and `%Y-%m-%dT%H:%M:%S.%fZ`
reformatted `inserted_at` of the record at position `pageSize − 1` from the
oldest end of the page (0-based — equivalently, position
`count(page) − pageSize` from the NEWEST end), with limit = pageSize. -/
theorem binary_search_partial_page (fetch : Int → List Row) (clock : Nat → Int)
    (ps : Int) (st fuel : Nat) (e d : Int)
    (hclk : e ≤ clock st)
    (hlen0 : (fetch e).length ≠ 0)
    (hlen100 : (fetch e).length ≠ 100) :
    (((fetch e).length : Int) < ps →
      binary_search_for_oldest fetch clock ps st (fuel + 1) e d =
        .ok (untilParams (fmtTimestamp e) ps)) ∧
    (∀ r t, ¬ ((fetch e).length : Int) < ps → 0 < ps →
      fromOldestEnd (fetch e) (ps.toNat - 1) = some r →
      insertedAt r = some t →
      binary_search_for_oldest fetch clock ps st (fuel + 1) e d =
        .ok (untilParams (fmtTimestamp t) ps)) :=
  binary_search_partial_step fetch clock ps st fuel e d hclk hlen0 hlen100

/-- C5 counterexample: on a partial page of 5 records with pageSize 2, the
search returns the until timestamp of `records[-2]` — 2 microseconds — while
the record at position `count − pageSize` from the oldest end carries
4 microseconds; the claim's position names a different record. -/
theorem binary_search_partial_page_cex :
    binary_search_for_oldest (fun _ => pageCex5) (fun _ => 10) 2 0 1 0 0 =
      .ok (untilParams "1970-01-01T00:00:00.000002Z" 2) ∧
    (fromOldestEnd pageCex5 (pageCex5.length - 2)).bind insertedAt = some 4 ∧
    binary_search_for_oldest (fun _ => pageCex5) (fun _ => 10) 2 0 1 0 0 ≠
      .ok (untilParams "1970-01-01T00:00:00.000004Z" 2) :=
  ⟨by decide, by decide, by decide⟩

/-- Witness for C5: both partial-page outcomes at concrete probes — a
1-record page below pageSize 2 returns until-at-windowEnd, and a 3-record
page at or above pageSize 2 returns until at the timestamp of the second
record from the oldest end. -/
theorem binary_search_partial_page_witness :
    binary_search_for_oldest
        (fun _ => [[("inserted_at", Value.str "1970-01-01T00:00:00.000001Z")]])
        (fun _ => 10) 2 0 1 0 0 = .ok (untilParams (fmtTimestamp 0) 2) ∧
    binary_search_for_oldest
        (fun _ => [[("inserted_at", Value.str "1970-01-01T00:00:00.000003Z")],
          [("inserted_at", Value.str "1970-01-01T00:00:00.000002Z")],
          [("inserted_at", Value.str "1970-01-01T00:00:00.000001Z")]])
        (fun _ => 10) 2 0 1 0 0 = .ok (untilParams (fmtTimestamp 2) 2) := by
  constructor
  · exact (binary_search_partial_page
      (fun _ => [[("inserted_at", Value.str "1970-01-01T00:00:00.000001Z")]])
      (fun _ => 10) 2 0 0 0 0 (by decide) (by decide) (by decide)).1 (by decide)
  · exact (binary_search_partial_page
      (fun _ => [[("inserted_at", Value.str "1970-01-01T00:00:00.000003Z")],
        [("inserted_at", Value.str "1970-01-01T00:00:00.000002Z")],
        [("inserted_at", Value.str "1970-01-01T00:00:00.000001Z")]])
      (fun _ => 10) 2 0 0 0 0 (by decide) (by decide) (by decide)).2
      [("inserted_at", Value.str "1970-01-01T00:00:00.000002Z")] 2
      (by decide) (by decide) (by decide) (by decide)

theorem binary_search_partial_now (fetch : Int → List Row) (clock : Nat → Int)
    (ps : Int) (hps : 0 < ps) (st : Nat) (e d : Int)
    (hclk : e ≤ clock st)
    (hlen : 1 ≤ (fetch e).length ∧ (fetch e).length ≤ 99)
    (hwf : ∀ r ∈ fetch e, (insertedAt r).isSome) :
    ∃ s, binary_search_for_oldest fetch clock ps st 1 e d = .ok (untilParams s ps) := by
  have hnotlt : ¬ clock st < e := not_lt.2 hclk
  have hlen0 : (fetch e).length ≠ 0 := by omega
  have hlen100 : (fetch e).length ≠ 100 := by omega
  by_cases hlt : ((fetch e).length : Int) < ps
  · exact ⟨fmtTimestamp e, by
      simpa using (binary_search_partial_step fetch clock ps st 0 e d hclk
        hlen0 hlen100).1 hlt⟩
  · have hle : ps ≤ ((fetch e).length : Int) := not_lt.1 hlt
    obtain ⟨r, _, hmem, hfrom⟩ := pyIndex_neg_mem (fetch e) ps hps hle
    obtain ⟨t, ht⟩ := Option.isSome_iff_exists.1 (hwf r hmem)
    exact ⟨fmtTimestamp t, by
      simpa using (binary_search_partial_step fetch clock ps st 0 e d hclk
        hlen0 hlen100).2 r t hlt hps hfrom ht⟩

theorem binary_search_converges_aux (fetch : Int → List Row) (clock : Nat → Int)
    (ps : Int) (hps : 0 < ps) :
    ∀ n : Nat, ∀ e d : Int, ∀ st : Nat, d.toNat ≤ n → 0 ≤ d →
      (∀ s, e ≤ clock s) →
      (∀ i, 1000000 ≤ (searchIter e d i).2 →
        (fetch (searchIter e d i).1).length = 100) →
      (∀ i, (searchIter e d i).2 < 1000000 →
        1 ≤ (fetch (searchIter e d i).1).length ∧
          (fetch (searchIter e d i).1).length ≤ 99) →
      (∀ i, (searchIter e d i).2 < 1000000 →
        ∀ r ∈ fetch (searchIter e d i).1, (insertedAt r).isSome) →
      ∃ fuel s, binary_search_for_oldest fetch clock ps st fuel e d =
        .ok (untilParams s ps) := by
  intro n
  induction n with
  | zero =>
    intro e d st hdn hd0 hclk h100 hpart hwf
    have hsmall : d < 1000000 := by omega
    obtain ⟨s, hs⟩ := binary_search_partial_now fetch clock ps hps st e d (hclk st)
      (hpart 0 hsmall) (hwf 0 hsmall)
    exact ⟨1, s, hs⟩
  | succ n ih =>
    intro e d st hdn hd0 hclk h100 hpart hwf
    by_cases hsmall : d < 1000000
    · obtain ⟨s, hs⟩ := binary_search_partial_now fetch clock ps hps st e d (hclk st)
        (hpart 0 hsmall) (hwf 0 hsmall)
      exact ⟨1, s, hs⟩
    · have hbig : 1000000 ≤ d := not_lt.1 hsmall
      have h100now : (fetch e).length = 100 := h100 0 hbig
      have hhn : 0 ≤ halveDelta d := halveDelta_nonneg hd0
      have hlt : halveDelta d < d := halveDelta_lt (by omega)
      have hshift := searchIter_succ_shift e d
      obtain ⟨fuel, s, hok⟩ := ih (e - halveDelta d) (halveDelta d) (st + 1)
        (by omega) hhn
        (fun s => le_trans (by omega) (hclk s))
        (fun i hi => by
          have hh := h100 (i + 1)
          rw [hshift i] at hh
          exact hh hi)
        (fun i hi => by
          have hh := hpart (i + 1)
          rw [hshift i] at hh
          exact hh hi)
        (fun i hi => by
          have hh := hwf (i + 1)
          rw [hshift i] at hh
          exact hh hi)
      refine ⟨fuel + 1, s, ?_⟩
      have hnotlt : ¬ clock st < e := not_lt.2 (hclk st)
      simp [binary_search_for_oldest, hnotlt, h100now, hok]

/-- C9: if every probe returns a page of exactly 100 records while the search
window's half-width is at least one second, and a partial page of 1..99
wellformed records once the half-width has collapsed below one second, then
the recursive binary search terminates after finitely many probes and
returns a partial-page until-cursor request. -/
theorem binary_search_terminates (fetch : Int → List Row) (clock : Nat → Int)
    (ps : Int) (e0 d0 : Int) (st : Nat)
    (hps : 0 < ps) (hd0 : 0 ≤ d0)
    (hclk : ∀ s, e0 ≤ clock s)
    (h100 : ∀ i, 1000000 ≤ (searchIter e0 d0 i).2 →
      (fetch (searchIter e0 d0 i).1).length = 100)
    (hpart : ∀ i, (searchIter e0 d0 i).2 < 1000000 →
      1 ≤ (fetch (searchIter e0 d0 i).1).length ∧
        (fetch (searchIter e0 d0 i).1).length ≤ 99)
    (hwf : ∀ i, (searchIter e0 d0 i).2 < 1000000 →
      ∀ r ∈ fetch (searchIter e0 d0 i).1, (insertedAt r).isSome) :
    ∃ fuel s, binary_search_for_oldest fetch clock ps st fuel e0 d0 =
      .ok (untilParams s ps) :=
  binary_search_converges_aux fetch clock ps hps d0.toNat e0 d0 st le_rfl hd0
    hclk h100 hpart hwf

/-- Witness for C9 at a degenerate concrete scenario: every probe is partial
from the start (the half-width is already below one second), and the search
returns an until-cursor request. -/
theorem binary_search_terminates_witness :
    ∃ fuel s,
      binary_search_for_oldest
        (fun _ => [[("inserted_at", Value.str "1970-01-01T00:00:00Z")]])
        (fun _ => 0) 100 5 fuel 0 0 = .ok (untilParams s 100) := by
  refine binary_search_terminates
    (fun _ => [[("inserted_at", Value.str "1970-01-01T00:00:00Z")]])
    (fun _ => 0) 100 0 0 5 (by decide) le_rfl (fun _ => le_rfl) ?_ ?_ ?_
  · intro i hi
    rw [searchIter_zero_delta 0 i] at hi
    exact absurd hi (by decide)
  · intro i _
    exact ⟨by simp, by simp⟩
  · intro i _ r hr
    rcases List.mem_cons.1 hr with rfl | hr
    · decide
    · exact absurd hr (List.not_mem_nil r)
